import Mathlib

/-!
# PosixSpawn: `exec` of `PosixSpawn/main.cpp`

A shallow embedding of `exec` (and of `Core::Defer`) and a verification of the
statements made about it.

`exec` talks to the operating system only through system calls.  The embedding
is a pure function of the caller's arguments and of an `Env`, which lists what
every system call answers; it returns the values left in the reference
parameters together with the ordered list of system calls the function issued
(`Outcome.trace`).  The parent's descriptor table is recovered from that list
by `fdTable`.
-/

set_option linter.unusedVariables false

namespace PosixSpawn

/-- One byte of a `std::string` / of the `char buff[ 1024 ]` read buffer. -/
abbrev Byte := Fin 256

/-- A file descriptor (`int`). -/
abbrev Fd := Int

/-- The `POLLIN` bit of `<poll.h>` (0x0001). -/
def POLLIN : Nat := 1

/-- The `POLLHUP` bit of `<poll.h>` (0x0010). -/
def POLLHUP : Nat := 16

/-- The system calls `exec` issues, each with its arguments and its answer. -/
inductive Call where
  /-- Call `pipe( p )`: `some (p[0], p[1])` when it returned 0, `none` otherwise. -/
  | pipe (res : Option (Fd × Fd))
  /-- Call `posix_spawn_file_actions_init` and its return code. -/
  | actionsInit (rc : Int)
  /-- Call `posix_spawn_file_actions_addclose( &actions, fd )` and its return code. -/
  | addclose (fd : Fd) (rc : Int)
  /-- Call `posix_spawn_file_actions_adddup2( &actions, fd, newfd )` and its return code. -/
  | adddup2 (fd newfd : Fd) (rc : Int)
  /-- Call `posix_spawn_file_actions_destroy( &actions )`. -/
  | actionsDestroy
  /-- Call `calloc( sizeof( char * ), count )`; `ok = false` when it returned `nullptr`. -/
  | calloc (count : Nat) (ok : Bool)
  /-- The loop of `free( argv[ i ] )` over `slots` slots followed by `free( argv )`. -/
  | freeArgv (slots : Nat)
  /-- Call `posix_spawnp( &pid, file, &actions, nullptr, argv, envp )`, its return
  value and the value of `pid` after the call. -/
  | spawnp (file : String) (argv : List (Option String)) (status : Int) (pid : Int)
  /-- Call `close( fd )`. -/
  | close (fd : Fd)
  /-- Call `poll( fds, 2, -1 )` over the two read ends, its return value and the two
  `revents` fields after the call. -/
  | poll (fd0 fd1 : Fd) (rval : Int) (revents0 revents1 : Nat)
  /-- Call `read( fd, buff, count )`: `none` when it returned -1, `some bs` when it
  returned `bs.length` and stored `bs` in `buff`. -/
  | read (fd : Fd) (count : Nat) (res : Option (List Byte))
  /-- Call `waitpid( pid, &status, 0 )`. -/
  | waitpid (pid : Int)
  deriving DecidableEq

/-- What the operating system answers during one iteration of the drain loop:
the return value of `poll`, the `revents` it stored for the two descriptors and
the result of the `read` that the iteration issues, if it issues one. -/
structure IoStep where
  rval : Int
  revents0 : Nat
  revents1 : Nat
  rd : Option (List Byte)
  deriving DecidableEq

/-- The answers of the operating system to the calls of one run of `exec`. -/
structure Env where
  /-- Answer of `pipe( pipeOut )`: the two descriptors, or `none` when it fails. -/
  pipeOut : Option (Fd × Fd)
  /-- Answer of `pipe( pipeErr )`. -/
  pipeErr : Option (Fd × Fd)
  /-- Return code of `posix_spawn_file_actions_init`. -/
  init : Int
  /-- Return code of `addclose( pipeOut[ 0 ] )`. -/
  addcloseOut0 : Int
  /-- Return code of `addclose( pipeErr[ 0 ] )`. -/
  addcloseErr0 : Int
  /-- Return code of `adddup2( pipeOut[ 1 ], 1 )`. -/
  adddup2Out : Int
  /-- Return code of `adddup2( pipeErr[ 1 ], 2 )`. -/
  adddup2Err : Int
  /-- Return code of `addclose( pipeOut[ 1 ] )`. -/
  addcloseOut1 : Int
  /-- Return code of `addclose( pipeErr[ 1 ] )`. -/
  addcloseErr1 : Int
  /-- Whether `calloc` returns a block (`false`: it returns `nullptr`). -/
  calloc : Bool
  /-- The slots of `argv` whose `strdup` returns `nullptr`. -/
  strdupNull : List Nat
  /-- Return value of `posix_spawnp`. -/
  spawnStatus : Int
  /-- The process identifier `posix_spawnp` assigns when it succeeds. -/
  spawnPid : Int
  /-- The answers to the successive iterations of the drain loop; once they are
  used up the next `poll` fails (returns -1). -/
  io : List IoStep
  deriving DecidableEq

namespace Core

/-- The class `Core::Defer`: the closures registered with `+=`, in registration
order.  A closure acts on the list of system calls issued so far. -/
structure Defer where
  _f : List (List Call → List Call)

/-- Operator `Defer::operator +=`: `push_back` of the closure. -/
def Defer.add (d : Defer) (f : List Call → List Call) : Defer :=
  ⟨d._f ++ [f]⟩

/-- Destructor `Defer::~Defer`: calls every registered closure, first registered first. -/
def Defer.run (d : Defer) (t : List Call) : List Call :=
  d._f.foldl (fun acc f => f acc) t

end Core

/-- The C string that `s.c_str()` hands to `strdup` and to `posix_spawnp`: these
read it up to its terminator, so it is the characters of `s` before the first
NUL character of `s`. -/
def c_str (s : String) : String :=
  String.mk (s.data.takeWhile (fun c => c ≠ Char.ofNat 0))

/-- Result of `strdup( cs )` for slot `i` of `argv`: a copy of the C string
`cs`, or `nullptr`. -/
def strdup (env : Env) (i : Nat) (cs : String) : Option String :=
  if i ∈ env.strdupNull then none else some cs

/-- The loop `for( size_t i = 1; i < args.size() + 1; i++ )` of lines 154-157:
`i` runs over 1, ..., `args.size()` and slot `i` receives
`strdup( args[ i - 1 ].c_str() )`. -/
def fillArgs (env : Env) (args : List String) (argv : List (Option String)) :
    List (Option String) :=
  (List.range' 1 args.length).foldl
    (fun argv i => argv.set i (strdup env i (c_str (args.getD (i - 1) "")))) argv

/-- Lines 133-157: the zeroed block of `args.size() + 2` slots, slot 0, the
last slot and the loop over the arguments. -/
def buildArgv (env : Env) (command : String) (args : List String) : List (Option String) :=
  let argv : List (Option String) := List.replicate (args.length + 2) none
  let argv := argv.set 0 (strdup env 0 (c_str command))
  let argv := argv.set (args.length + 1) none
  fillArgs env args argv

/-- Modelled from the spec: the launch primitive `posix_spawnp` is an operating
system call, not code of this repository; it "returns a process identifier or an
error code", so it stores the new process identifier in `pid` when it returns 0
and leaves `pid` as it was otherwise.  Result: the status and the value of
`pid` after the call. -/
def posix_spawnp (env : Env) (pid : Int) : Int × Int :=
  (env.spawnStatus, if env.spawnStatus = 0 then env.spawnPid else pid)

/-- The local variables the drain loop of lines 173-201 works on. -/
structure DrainState where
  /-- Variable `n[ 0 ]`. -/
  n0 : Int
  /-- Variable `n[ 1 ]`. -/
  n1 : Int
  /-- Variable `rval`, the value of the last `poll`. -/
  rval : Int
  /-- Field `fds[ 0 ].revents`. -/
  revents0 : Nat
  /-- Field `fds[ 1 ].revents`. -/
  revents1 : Nat
  output : List Byte
  error : List Byte
  trace : List Call
  deriving DecidableEq

/-- The value `read` returns. -/
def readN : Option (List Byte) → Int
  | none => -1
  | some bs => (bs.length : Int)

/-- The string `std::string( buff, n )` built after a `read` that returned `n`. -/
def readChunk (rd : Option (List Byte)) : List Byte :=
  (rd.getD []).take (readN rd).toNat

/-- The loop `for( int rval; ( rval = poll( fds, 2, -1 ) ) > 0; )` of lines
177-201 over the read ends `fdOut = pipeOut[ 0 ]` and `fdErr = pipeErr[ 0 ]`. -/
def drain (fdOut fdErr : Fd) : List IoStep → DrainState → DrainState
  | [], st =>
    { st with rval := -1
              trace := st.trace ++ [Call.poll fdOut fdErr (-1) st.revents0 st.revents1] }
  | s :: rest, st =>
    let st := { st with rval := s.rval, revents0 := s.revents0, revents1 := s.revents1
                        trace := st.trace ++ [Call.poll fdOut fdErr s.rval s.revents0 s.revents1] }
    if st.rval > 0 then
      if st.n0 ≠ 0 ∧ st.revents0 &&& POLLIN ≠ 0 then
        let st := { st with n0 := readN s.rd, trace := st.trace ++ [Call.read fdOut 1024 s.rd] }
        let st := if st.n0 > 0 then { st with output := st.output ++ readChunk s.rd } else st
        drain fdOut fdErr rest st
      else if st.n1 ≠ 0 ∧ st.revents1 &&& POLLIN ≠ 0 then
        let st := { st with n1 := readN s.rd, trace := st.trace ++ [Call.read fdErr 1024 s.rd] }
        let st := if st.n1 > 0 then { st with error := st.error ++ readChunk s.rd } else st
        drain fdOut fdErr rest st
      else st
    else st

/-- What `exec` leaves behind: its return value, the reference parameters
`processID`, `output` and `error`, and the system calls it issued, in order. -/
structure Outcome where
  ret : Bool
  processID : Int
  output : List Byte
  error : List Byte
  trace : List Call
  deriving DecidableEq

/-- The function `exec` of lines 79-207. -/
def exec (command : String) (args : List String) (processID : Int)
    (output error : List Byte) (wait : Bool) (env : Env) : Outcome :=
  let defer : Core.Defer := ⟨[]⟩
  let processID : Int := 0
  let t : List Call := [Call.pipe env.pipeOut]
  match env.pipeOut with
  | none => ⟨false, processID, output, error, defer.run t⟩
  | some pipeOut =>
  let t := t ++ [Call.pipe env.pipeErr]
  match env.pipeErr with
  | none => ⟨false, processID, output, error, defer.run t⟩
  | some pipeErr =>
  let t := t ++ [Call.actionsInit env.init]
  if env.init ≠ 0 then ⟨false, processID, output, error, defer.run t⟩ else
  let defer := defer.add (fun t => t ++ [Call.actionsDestroy])
  let t := t ++ [Call.addclose pipeOut.1 env.addcloseOut0]
  if env.addcloseOut0 ≠ 0 then ⟨false, processID, output, error, defer.run t⟩ else
  let t := t ++ [Call.addclose pipeErr.1 env.addcloseErr0]
  if env.addcloseErr0 ≠ 0 then ⟨false, processID, output, error, defer.run t⟩ else
  let t := t ++ [Call.adddup2 pipeOut.2 1 env.adddup2Out]
  if env.adddup2Out ≠ 0 then ⟨false, processID, output, error, defer.run t⟩ else
  let t := t ++ [Call.adddup2 pipeErr.2 2 env.adddup2Err]
  if env.adddup2Err ≠ 0 then ⟨false, processID, output, error, defer.run t⟩ else
  let t := t ++ [Call.addclose pipeOut.2 env.addcloseOut1]
  if env.addcloseOut1 ≠ 0 then ⟨false, processID, output, error, defer.run t⟩ else
  let t := t ++ [Call.addclose pipeErr.2 env.addcloseErr1]
  if env.addcloseErr1 ≠ 0 then ⟨false, processID, output, error, defer.run t⟩ else
  let t := t ++ [Call.calloc (args.length + 2) env.calloc]
  if env.calloc = false then ⟨false, processID, output, error, defer.run t⟩ else
  let defer := defer.add (fun t => t ++ [Call.freeArgv (args.length + 2)])
  let argv := buildArgv env command args
  let pid : Int := 0
  let sp := posix_spawnp env pid
  let status := sp.1
  let pid := sp.2
  let t := t ++ [Call.spawnp (c_str command) argv status pid]
  let processID := pid
  let t := t ++ [Call.close pipeOut.2]
  let t := t ++ [Call.close pipeErr.2]
  if status ≠ 0 then ⟨false, processID, output, error, defer.run t⟩ else
  if wait then
    let st := drain pipeOut.1 pipeErr.1 env.io ⟨-1, -1, 0, 0, 0, output, error, t⟩
    let t := st.trace ++ [Call.waitpid pid]
    ⟨true, processID, st.output, st.error, defer.run t⟩
  else
    ⟨true, processID, output, error, defer.run t⟩

/-- The parent's descriptor table after one system call: a successful `pipe`
adds its two descriptors, `close` removes its argument. -/
def fdStep (fds : List Fd) : Call → List Fd
  | Call.pipe (some p) => fds ++ [p.1, p.2]
  | Call.close fd => fds.erase fd
  | _ => fds

/-- The parent's descriptor table after a list of system calls. -/
def fdTable (fds : List Fd) (t : List Call) : List Fd :=
  t.foldl fdStep fds

/-- An environment in which every call succeeds. -/
def envOk (io : List IoStep) : Env :=
  { pipeOut := some (3, 4), pipeErr := some (5, 6), init := 0
    addcloseOut0 := 0, addcloseErr0 := 0, adddup2Out := 0, adddup2Err := 0
    addcloseOut1 := 0, addcloseErr1 := 0, calloc := true, strdupNull := []
    spawnStatus := 0, spawnPid := 4242, io := io }


/-- The call is `posix_spawnp`. -/
def Call.isSpawnp : Call → Bool
  | Call.spawnp _ _ _ _ => true
  | _ => false

/-- The call is `poll`. -/
def Call.isPoll : Call → Bool
  | Call.poll _ _ _ _ _ => true
  | _ => false

/-- The call is `read`. -/
def Call.isRead : Call → Bool
  | Call.read _ _ _ => true
  | _ => false

/-- The call is `waitpid`. -/
def Call.isWaitpid : Call → Bool
  | Call.waitpid _ => true
  | _ => false

/-- The call belongs to the set-up of lines 88-139 or to its deferred release:
`pipe`, the `posix_spawn_file_actions_*` calls and `calloc`. -/
def Call.isSetup : Call → Bool
  | Call.pipe _ => true
  | Call.actionsInit _ => true
  | Call.addclose _ _ => true
  | Call.adddup2 _ _ _ => true
  | Call.actionsDestroy => true
  | Call.calloc _ _ => true
  | _ => false

/-- Every call of lines 88-136 succeeds, so that line 160 is reached. -/
def Env.setupOk (env : Env) : Prop :=
  env.pipeOut ≠ none ∧ env.pipeErr ≠ none ∧ env.init = 0 ∧ env.addcloseOut0 = 0 ∧
  env.addcloseErr0 = 0 ∧ env.adddup2Out = 0 ∧ env.adddup2Err = 0 ∧ env.addcloseOut1 = 0 ∧
  env.addcloseErr1 = 0 ∧ env.calloc = true

instance (env : Env) : Decidable env.setupOk := by
  unfold Env.setupOk
  exact inferInstance

/-- The calls of lines 88-133 when each of them succeeds, for the pipes `po`
and `pe` and an argument vector of `slots` slots. -/
def setupCalls (po pe : Fd × Fd) (slots : Nat) : List Call :=
  [Call.pipe (some po), Call.pipe (some pe), Call.actionsInit 0, Call.addclose po.1 0,
   Call.addclose pe.1 0, Call.adddup2 po.2 1 0, Call.adddup2 pe.2 2 0, Call.addclose po.2 0,
   Call.addclose pe.2 0, Call.calloc slots true]

/-- The calls the drain loop issues, as a function of the answers and of the
loop variables `n[ 0 ]`, `n[ 1 ]` and the two `revents`. -/
def drainCalls (fdOut fdErr : Fd) : List IoStep → Int → Int → Nat → Nat → List Call
  | [], _, _, r0, r1 => [Call.poll fdOut fdErr (-1) r0 r1]
  | s :: rest, n0, n1, _, _ =>
    Call.poll fdOut fdErr s.rval s.revents0 s.revents1 ::
      (if s.rval > 0 then
        if n0 ≠ 0 ∧ s.revents0 &&& POLLIN ≠ 0 then
          Call.read fdOut 1024 s.rd ::
            drainCalls fdOut fdErr rest (readN s.rd) n1 s.revents0 s.revents1
        else if n1 ≠ 0 ∧ s.revents1 &&& POLLIN ≠ 0 then
          Call.read fdErr 1024 s.rd ::
            drainCalls fdOut fdErr rest n0 (readN s.rd) s.revents0 s.revents1
        else []
      else [])

/-- The calls up to and including the two `close` of lines 163-164. -/
def launchCalls (command : String) (args : List String) (env : Env) (po pe : Fd × Fd) :
    List Call :=
  setupCalls po pe (args.length + 2) ++
    [Call.spawnp (c_str command) (buildArgv env command args) env.spawnStatus
       (if env.spawnStatus = 0 then env.spawnPid else 0),
     Call.close po.2, Call.close pe.2]

/-- The two states of a stream in the drain loop. -/
inductive StreamState where
  | Open
  | Exhausted
  deriving DecidableEq

/-- The state of a stream, read off its loop variable `n[ i ]`: `Exhausted`
once a `read` on it returned zero. -/
def streamState (n : Int) : StreamState :=
  if n = 0 then StreamState.Exhausted else StreamState.Open

/-! ## The kernel side of the two pipes -/

/-- The two streams of the child. -/
inductive Stream where
  | out
  | err
  deriving DecidableEq

/-- One action of the child on its standard output or standard error. -/
inductive ChildOp where
  /-- Does `write` of `bs` on the stream. -/
  | write (s : Stream) (bs : List Byte)
  /-- Does `close` of the stream. -/
  | close (s : Stream)
  deriving DecidableEq

/-- The kernel's view of the two pipes once the parent has closed its write
ends, and of the child. -/
structure Kernel where
  /-- Bytes written to the stdout pipe and not yet read. -/
  bufOut : List Byte
  /-- Bytes written to the stderr pipe and not yet read. -/
  bufErr : List Byte
  /-- The child still holds the write end of the stdout pipe. -/
  openOut : Bool
  /-- The child still holds the write end of the stderr pipe. -/
  openErr : Bool
  /-- Everything the child has written to stdout so far. -/
  wroteOut : List Byte
  /-- Everything the child has written to stderr so far. -/
  wroteErr : List Byte
  /-- What the child still has to do; it exits afterwards. -/
  prog : List ChildOp
  deriving DecidableEq

/-- The kernel state when the child starts. -/
def Kernel.start (prog : List ChildOp) : Kernel :=
  ⟨[], [], true, true, [], [], prog⟩

/-- The child performs its next action; with none left it exits, which closes
both write ends. -/
def Kernel.childStep (k : Kernel) : Kernel :=
  match k.prog with
  | [] => { k with openOut := false, openErr := false }
  | ChildOp.write Stream.out bs :: p =>
    if k.openOut then
      { k with bufOut := k.bufOut ++ bs, wroteOut := k.wroteOut ++ bs, prog := p }
    else { k with prog := p }
  | ChildOp.write Stream.err bs :: p =>
    if k.openErr then
      { k with bufErr := k.bufErr ++ bs, wroteErr := k.wroteErr ++ bs, prog := p }
    else { k with prog := p }
  | ChildOp.close Stream.out :: p => { k with openOut := false, prog := p }
  | ChildOp.close Stream.err :: p => { k with openErr := false, prog := p }

/-- The child performs `n` steps. -/
def Kernel.childRun (k : Kernel) : Nat → Kernel
  | 0 => k
  | n + 1 => (k.childStep).childRun n

/-- The `revents` that `poll` stores for the read end of a pipe holding `buf`
whose write end is open or not: `POLLIN` when there is data, `POLLHUP` when
every write end is closed.  With `eofReadable` the end of the stream counts as
readable as well (the BSD convention; Linux reports `POLLHUP` alone). -/
def Kernel.revents (eofReadable : Bool) (buf : List Byte) (wopen : Bool) : Nat :=
  (if buf ≠ [] ∨ (eofReadable = true ∧ wopen = false) then POLLIN else 0) |||
    (if wopen = false then POLLHUP else 0)

/-- Replays the calls of the parent against the kernel: `some k` when every
`poll` and `read` answer in the list is the one the kernel gives, the child
having performed, before each `poll` returns, the number of steps the schedule
`sched` says; `k` is the kernel state at the end.  `waitpid` lets the child run
to its exit. -/
def Kernel.replay (eofReadable : Bool) (fdOut fdErr : Fd) :
    Kernel → List Nat → List Call → Option Kernel
  | k, _, [] => some k
  | k, sched, Call.poll a b rval r0 r1 :: t =>
    let k := k.childRun (sched.headD 0)
    let e0 := Kernel.revents eofReadable k.bufOut k.openOut
    let e1 := Kernel.revents eofReadable k.bufErr k.openErr
    let ready : Int := (if e0 ≠ 0 then 1 else 0) + (if e1 ≠ 0 then 1 else 0)
    if a = fdOut ∧ b = fdErr ∧ r0 = e0 ∧ r1 = e1 ∧ rval = ready ∧ 0 < ready then
      Kernel.replay eofReadable fdOut fdErr k sched.tail t
    else none
  | k, sched, Call.read fd count res :: t =>
    match res with
    | none => none
    | some bs =>
      if fd = fdOut then
        if bs = k.bufOut.take count ∧ (bs ≠ [] ∨ k.openOut = false) then
          Kernel.replay eofReadable fdOut fdErr
            { k with bufOut := k.bufOut.drop count } sched t
        else none
      else if fd = fdErr then
        if bs = k.bufErr.take count ∧ (bs ≠ [] ∨ k.openErr = false) then
          Kernel.replay eofReadable fdOut fdErr
            { k with bufErr := k.bufErr.drop count } sched t
        else none
      else none
  | k, sched, Call.waitpid _ :: t =>
    Kernel.replay eofReadable fdOut fdErr (k.childRun (k.prog.length + 1)) sched t
  | k, sched, _ :: t => Kernel.replay eofReadable fdOut fdErr k sched t

/-- A child that closes its standard output and later writes "E\n" to its
standard error (`sh -c 'exec >&-; sleep 1; echo E >&2'`). -/
def closeThenComplain : List ChildOp :=
  [ChildOp.close Stream.out, ChildOp.write Stream.err [69, 10]]

/-! ## Auxiliary facts -/

theorem readN_eq_zero (rd : Option (List Byte)) : readN rd = 0 ↔ rd = some [] := by
  cases rd with
  | none => simp [readN]
  | some bs => cases bs <;> simp [readN]; omega

theorem drain_trace (fdOut fdErr : Fd) (io : List IoStep) (st : DrainState) :
    (drain fdOut fdErr io st).trace =
      st.trace ++ drainCalls fdOut fdErr io st.n0 st.n1 st.revents0 st.revents1 := by
  induction io generalizing st with
  | nil => simp [drain, drainCalls]
  | cons s rest ih =>
    simp only [drain, drainCalls]
    by_cases h : s.rval > 0
    · by_cases h0 : st.n0 ≠ 0 ∧ s.revents0 &&& POLLIN ≠ 0
      · rw [if_pos h, if_pos h0, if_pos h, if_pos h0, ih]
        split <;> simp
      · by_cases h1 : st.n1 ≠ 0 ∧ s.revents1 &&& POLLIN ≠ 0
        · rw [if_pos h, if_neg h0, if_pos h1, if_pos h, if_neg h0, if_pos h1, ih]
          split <;> simp
        · rw [if_pos h, if_neg h0, if_neg h1, if_pos h, if_neg h0, if_neg h1]
    · rw [if_neg h, if_neg h]

theorem drainCalls_io (fdOut fdErr : Fd) (io : List IoStep) (n0 n1 : Int) (r0 r1 : Nat) :
    ∀ c ∈ drainCalls fdOut fdErr io n0 n1 r0 r1, c.isPoll = true ∨ c.isRead = true := by
  induction io generalizing n0 n1 r0 r1 with
  | nil => simp [drainCalls, Call.isPoll]
  | cons s rest ih =>
    intro c hc
    simp only [drainCalls, List.mem_cons] at hc
    rcases hc with rfl | hc
    · simp [Call.isPoll]
    · by_cases h : s.rval > 0
      · by_cases h0 : n0 ≠ 0 ∧ s.revents0 &&& POLLIN ≠ 0
        · rw [if_pos h, if_pos h0] at hc
          rcases List.mem_cons.1 hc with rfl | hc
          · simp [Call.isRead]
          · exact ih _ _ _ _ c hc
        · by_cases h1 : n1 ≠ 0 ∧ s.revents1 &&& POLLIN ≠ 0
          · rw [if_pos h, if_neg h0, if_pos h1] at hc
            rcases List.mem_cons.1 hc with rfl | hc
            · simp [Call.isRead]
            · exact ih _ _ _ _ c hc
          · simp only [if_pos h, if_neg h0, if_neg h1] at hc
            exact absurd hc (List.not_mem_nil c)
      · simp only [if_neg h] at hc
        exact absurd hc (List.not_mem_nil c)

theorem exec_setup_fail (command : String) (args : List String) (processID : Int)
    (output error : List Byte) (wait : Bool) (env : Env) (h : ¬ env.setupOk) :
    (exec command args processID output error wait env).ret = false ∧
    (exec command args processID output error wait env).processID = 0 ∧
    (exec command args processID output error wait env).output = output ∧
    (exec command args processID output error wait env).error = error ∧
    ∀ c ∈ (exec command args processID output error wait env).trace, c.isSetup = true := by
  unfold exec
  rcases hpo : env.pipeOut with _ | po
  · simp [Core.Defer.run, Call.isSetup]
  rcases hpe : env.pipeErr with _ | pe
  · simp [Core.Defer.run, Call.isSetup]
  by_cases h1 : env.init = 0
  swap
  · simp [h1, Core.Defer.run, Call.isSetup]
  by_cases h2 : env.addcloseOut0 = 0
  swap
  · simp [h1, h2, Core.Defer.run, Core.Defer.add, Call.isSetup]
  by_cases h3 : env.addcloseErr0 = 0
  swap
  · simp [h1, h2, h3, Core.Defer.run, Core.Defer.add, Call.isSetup]
  by_cases h4 : env.adddup2Out = 0
  swap
  · simp [h1, h2, h3, h4, Core.Defer.run, Core.Defer.add, Call.isSetup]
  by_cases h5 : env.adddup2Err = 0
  swap
  · simp [h1, h2, h3, h4, h5, Core.Defer.run, Core.Defer.add, Call.isSetup]
  by_cases h6 : env.addcloseOut1 = 0
  swap
  · simp [h1, h2, h3, h4, h5, h6, Core.Defer.run, Core.Defer.add, Call.isSetup]
  by_cases h7 : env.addcloseErr1 = 0
  swap
  · simp [h1, h2, h3, h4, h5, h6, h7, Core.Defer.run, Core.Defer.add, Call.isSetup]
  by_cases h8 : env.calloc = true
  swap
  · simp [h1, h2, h3, h4, h5, h6, h7, h8, Core.Defer.run, Core.Defer.add, Call.isSetup]
  exact absurd ⟨by simp [hpo], by simp [hpe], h1, h2, h3, h4, h5, h6, h7, h8⟩ h

theorem exec_setup_ok (command : String) (args : List String) (processID : Int)
    (output error : List Byte) (wait : Bool) (env : Env) (h : env.setupOk) :
    ∃ po pe, env.pipeOut = some po ∧ env.pipeErr = some pe ∧
      exec command args processID output error wait env =
        (if env.spawnStatus ≠ 0 then
           ⟨false, 0, output, error, launchCalls command args env po pe ++
             [Call.actionsDestroy, Call.freeArgv (args.length + 2)]⟩
         else if wait then
           ⟨true, env.spawnPid,
             (drain po.1 pe.1 env.io
               ⟨-1, -1, 0, 0, 0, output, error, launchCalls command args env po pe⟩).output,
             (drain po.1 pe.1 env.io
               ⟨-1, -1, 0, 0, 0, output, error, launchCalls command args env po pe⟩).error,
             launchCalls command args env po pe ++ drainCalls po.1 pe.1 env.io (-1) (-1) 0 0 ++
               [Call.waitpid env.spawnPid, Call.actionsDestroy,
                 Call.freeArgv (args.length + 2)]⟩
         else
           ⟨true, env.spawnPid, output, error, launchCalls command args env po pe ++
             [Call.actionsDestroy, Call.freeArgv (args.length + 2)]⟩) := by
  obtain ⟨hpo, hpe, h1, h2, h3, h4, h5, h6, h7, h8⟩ := h
  rcases hpo' : env.pipeOut with _ | po
  · exact absurd hpo' hpo
  rcases hpe' : env.pipeErr with _ | pe
  · exact absurd hpe' hpe
  refine ⟨po, pe, rfl, rfl, ?_⟩
  unfold exec
  by_cases hs : env.spawnStatus = 0
  · cases wait
    · simp [hpo', hpe', h1, h2, h3, h4, h5, h6, h7, h8, hs, Core.Defer.run, Core.Defer.add,
        setupCalls, launchCalls, posix_spawnp]
    · simp [hpo', hpe', h1, h2, h3, h4, h5, h6, h7, h8, hs, Core.Defer.run, Core.Defer.add,
        setupCalls, launchCalls, posix_spawnp, drain_trace]
  · simp [hpo', hpe', h1, h2, h3, h4, h5, h6, h7, h8, hs, Core.Defer.run, Core.Defer.add,
        setupCalls, launchCalls, posix_spawnp]

theorem launchCalls_mem_spawnp (command : String) (args : List String) (env : Env)
    (po pe : Fd × Fd) (file : String) (argv : List (Option String)) (status pid : Int)
    (h : Call.spawnp file argv status pid ∈ launchCalls command args env po pe) :
    file = c_str command ∧ argv = buildArgv env command args ∧ status = env.spawnStatus ∧
      pid = (if env.spawnStatus = 0 then env.spawnPid else 0) := by
  simpa [launchCalls, setupCalls] using h

theorem drainCalls_not_spawnp (fdOut fdErr : Fd) (io : List IoStep) (n0 n1 : Int) (r0 r1 : Nat)
    (c : Call) (hc : c ∈ drainCalls fdOut fdErr io n0 n1 r0 r1) : c.isSpawnp = false := by
  rcases drainCalls_io fdOut fdErr io n0 n1 r0 r1 c hc with h | h <;>
    cases c <;> simp_all [Call.isPoll, Call.isRead, Call.isSpawnp]

theorem exec_spawnp_mem (command : String) (args : List String) (processID : Int)
    (output error : List Byte) (wait : Bool) (env : Env)
    (file : String) (argv : List (Option String)) (status pid : Int)
    (h : Call.spawnp file argv status pid ∈
      (exec command args processID output error wait env).trace) :
    env.setupOk ∧ file = c_str command ∧ argv = buildArgv env command args ∧
      status = env.spawnStatus ∧ pid = (if env.spawnStatus = 0 then env.spawnPid else 0) := by
  by_cases hok : env.setupOk
  · refine ⟨hok, ?_⟩
    obtain ⟨po, pe, -, -, he⟩ := exec_setup_ok command args processID output error wait env hok
    rw [he] at h
    apply launchCalls_mem_spawnp command args env po pe
    by_cases hs : env.spawnStatus = 0
    · cases wait
      · simpa [hs] using h
      · simp only [hs, ne_eq, not_true_eq_false, if_false, if_true, List.mem_append] at h
        rcases h with (h | h) | h
        · simpa [hs] using h
        · have := drainCalls_not_spawnp _ _ _ _ _ _ _ _ h
          simp [Call.isSpawnp] at this
        · simp at h
    · simpa [hs] using h
  · have := (exec_setup_fail command args processID output error wait env hok).2.2.2.2 _ h
    simp [Call.isSetup] at this

/-! ## Failure before the launch (C3) -/

/-- C3: when `pipe`, `posix_spawn_file_actions_init`, one of the `addclose` /
`adddup2` actions or `calloc` fails, then whatever `processID` held before the
call, `exec` returns `false`, `processID` is 0 on return and `posix_spawnp` is
never called. -/
theorem exec_setup_failure_returns_false (command : String) (args : List String)
    (processID : Int) (output error : List Byte) (wait : Bool) (env : Env)
    (h : env.pipeOut = none ∨ env.pipeErr = none ∨ env.init ≠ 0 ∨ env.addcloseOut0 ≠ 0 ∨
      env.addcloseErr0 ≠ 0 ∨ env.adddup2Out ≠ 0 ∨ env.adddup2Err ≠ 0 ∨
      env.addcloseOut1 ≠ 0 ∨ env.addcloseErr1 ≠ 0 ∨ env.calloc = false) :
    (exec command args processID output error wait env).ret = false ∧
    (exec command args processID output error wait env).processID = 0 ∧
    ∀ file argv status pid,
      Call.spawnp file argv status pid ∉
        (exec command args processID output error wait env).trace := by
  have hok : ¬ env.setupOk := by
    rintro ⟨hpo, hpe, h1, h2, h3, h4, h5, h6, h7, h8⟩
    rcases h with h | h | h | h | h | h | h | h | h | h
    · exact hpo h
    · exact hpe h
    · exact h h1
    · exact h h2
    · exact h h3
    · exact h h4
    · exact h h5
    · exact h h6
    · exact h h7
    · simp [h8] at h
  obtain ⟨hr, hp, -, -, ht⟩ := exec_setup_fail command args processID output error wait env hok
  refine ⟨hr, hp, ?_⟩
  intro file argv status pid hmem
  have := ht _ hmem
  simp [Call.isSetup] at this

/-- C3, at an input: the second `pipe` fails while `processID` held 77. -/
theorem exec_setup_failure_returns_false_witness :
    ({ envOk [] with pipeErr := none } : Env).pipeErr = none ∧
    (exec "/bin/ls" ["-al", "/"] 77 [] [] true
        { envOk [] with pipeErr := none }).ret = false ∧
    (exec "/bin/ls" ["-al", "/"] 77 [] [] true
        { envOk [] with pipeErr := none }).processID = 0 ∧
    ∀ file argv status pid,
      Call.spawnp file argv status pid ∉
        (exec "/bin/ls" ["-al", "/"] 77 [] [] true
          { envOk [] with pipeErr := none }).trace :=
  ⟨rfl, exec_setup_failure_returns_false "/bin/ls" ["-al", "/"] 77 [] [] true
    { envOk [] with pipeErr := none } (Or.inr (Or.inl rfl))⟩

/-! ## Failure of the launch (C4) -/

/-- C4: when `posix_spawnp` is called and returns a non-zero status, with
`output` and `error` empty at the call, `exec` returns `false`, `processID` is
0, `output` and `error` are still empty, and no `poll`, `read` or `waitpid` is
issued. -/
theorem exec_launch_failure (command : String) (args : List String) (processID : Int)
    (wait : Bool) (env : Env) (file : String) (argv : List (Option String))
    (status pid : Int)
    (hcall : Call.spawnp file argv status pid ∈
      (exec command args processID [] [] wait env).trace)
    (hstatus : status ≠ 0) :
    (exec command args processID [] [] wait env).ret = false ∧
    (exec command args processID [] [] wait env).processID = 0 ∧
    (exec command args processID [] [] wait env).output = [] ∧
    (exec command args processID [] [] wait env).error = [] ∧
    ∀ c ∈ (exec command args processID [] [] wait env).trace,
      c.isPoll = false ∧ c.isRead = false ∧ c.isWaitpid = false := by
  obtain ⟨hok, -, -, hs, -⟩ :=
    exec_spawnp_mem command args processID [] [] wait env file argv status pid hcall
  obtain ⟨po, pe, -, -, he⟩ := exec_setup_ok command args processID [] [] wait env hok
  have hs' : env.spawnStatus ≠ 0 := hs ▸ hstatus
  rw [he, if_pos hs']
  refine ⟨rfl, rfl, rfl, rfl, ?_⟩
  intro c hc
  simp only [launchCalls, setupCalls, List.mem_append, List.mem_cons, List.mem_singleton,
    List.not_mem_nil, or_false] at hc
  rcases hc with (hc | hc) | hc
  · rcases hc with rfl | rfl | rfl | rfl | rfl | rfl | rfl | rfl | rfl | rfl <;>
      simp [Call.isPoll, Call.isRead, Call.isWaitpid]
  · rcases hc with rfl | rfl | rfl <;> simp [Call.isPoll, Call.isRead, Call.isWaitpid]
  · rcases hc with rfl | rfl <;> simp [Call.isPoll, Call.isRead, Call.isWaitpid]

/-- C4, at an input: the command does not exist and `posix_spawnp` returns 2
(`ENOENT`). -/
theorem exec_launch_failure_witness :
    Call.spawnp "/no/such" [some "/no/such", none] 2 0 ∈
      (exec "/no/such" [] 0 [] [] true { envOk [] with spawnStatus := 2 }).trace ∧
    (exec "/no/such" [] 0 [] [] true { envOk [] with spawnStatus := 2 }).ret = false ∧
    (exec "/no/such" [] 0 [] [] true { envOk [] with spawnStatus := 2 }).processID = 0 ∧
    (exec "/no/such" [] 0 [] [] true { envOk [] with spawnStatus := 2 }).output = [] ∧
    (exec "/no/such" [] 0 [] [] true { envOk [] with spawnStatus := 2 }).error = [] ∧
    ∀ c ∈ (exec "/no/such" [] 0 [] [] true { envOk [] with spawnStatus := 2 }).trace,
      c.isPoll = false ∧ c.isRead = false ∧ c.isWaitpid = false :=
  ⟨by decide, exec_launch_failure "/no/such" [] 0 true { envOk [] with spawnStatus := 2 }
    "/no/such" [some "/no/such", none] 2 0 (by decide) (by decide)⟩

/-! ## Launch without waiting (C8) -/

/-- C8: with `wait = false`, when `posix_spawnp` is called and returns 0 having
assigned the process identifier `pid`, `exec` returns `true`, `processID` is
`pid`, `output` and `error` are what they were at the call, and no `poll`,
`read` or `waitpid` is issued. -/
theorem exec_no_wait (command : String) (args : List String) (processID : Int)
    (output error : List Byte) (env : Env) (file : String)
    (argv : List (Option String)) (pid : Int)
    (hcall : Call.spawnp file argv 0 pid ∈
      (exec command args processID output error false env).trace) :
    (exec command args processID output error false env).ret = true ∧
    (exec command args processID output error false env).processID = pid ∧
    pid = env.spawnPid ∧
    (exec command args processID output error false env).output = output ∧
    (exec command args processID output error false env).error = error ∧
    ∀ c ∈ (exec command args processID output error false env).trace,
      c.isPoll = false ∧ c.isRead = false ∧ c.isWaitpid = false := by
  obtain ⟨hok, -, -, hs, hp⟩ :=
    exec_spawnp_mem command args processID output error false env file argv 0 pid hcall
  obtain ⟨po, pe, -, -, he⟩ := exec_setup_ok command args processID output error false env hok
  have hs' : env.spawnStatus = 0 := hs.symm
  rw [if_pos hs'] at hp
  rw [he, if_neg (not_not.mpr hs'), if_neg Bool.false_ne_true]
  refine ⟨rfl, hp.symm, hp, rfl, rfl, ?_⟩
  intro c hc
  simp only [launchCalls, setupCalls, List.mem_append, List.mem_cons, List.mem_singleton,
    List.not_mem_nil, or_false] at hc
  rcases hc with (hc | hc) | hc
  · rcases hc with rfl | rfl | rfl | rfl | rfl | rfl | rfl | rfl | rfl | rfl <;>
      simp [Call.isPoll, Call.isRead, Call.isWaitpid]
  · rcases hc with rfl | rfl | rfl <;> simp [Call.isPoll, Call.isRead, Call.isWaitpid]
  · rcases hc with rfl | rfl <;> simp [Call.isPoll, Call.isRead, Call.isWaitpid]

/-- C8, at an input: a slow child launched without waiting, the buffers holding
one byte each at the call. -/
theorem exec_no_wait_witness :
    Call.spawnp "/bin/sleep" [some "/bin/sleep", some "10", none] 0 4242 ∈
      (exec "/bin/sleep" ["10"] 0 [1] [2] false (envOk [])).trace ∧
    (exec "/bin/sleep" ["10"] 0 [1] [2] false (envOk [])).ret = true ∧
    (exec "/bin/sleep" ["10"] 0 [1] [2] false (envOk [])).processID = 4242 ∧
    (4242 : Int) = (envOk []).spawnPid ∧
    (exec "/bin/sleep" ["10"] 0 [1] [2] false (envOk [])).output = [1] ∧
    (exec "/bin/sleep" ["10"] 0 [1] [2] false (envOk [])).error = [2] ∧
    ∀ c ∈ (exec "/bin/sleep" ["10"] 0 [1] [2] false (envOk [])).trace,
      c.isPoll = false ∧ c.isRead = false ∧ c.isWaitpid = false :=
  ⟨by decide, exec_no_wait "/bin/sleep" ["10"] 0 [1] [2] (envOk [])
    "/bin/sleep" [some "/bin/sleep", some "10", none] 4242 (by decide)⟩

/-! ## The write ends are closed right after the launch (C6) -/

/-- C6: in every run of `exec` that calls `posix_spawnp`, whatever the status
of that call, the calls issued are: set-up calls only (no `poll`, no `read`),
then `posix_spawnp`, then at once `close( pipeOut[ 1 ] )` and
`close( pipeErr[ 1 ] )`, then the rest, which launches nothing. -/
theorem exec_closes_write_ends_after_launch (command : String) (args : List String)
    (processID : Int) (output error : List Byte) (wait : Bool) (env : Env) (c : Call)
    (hc : c ∈ (exec command args processID output error wait env).trace)
    (hs : c.isSpawnp = true) :
    ∃ po pe pre post, env.pipeOut = some po ∧ env.pipeErr = some pe ∧
      (exec command args processID output error wait env).trace =
        pre ++ c :: Call.close po.2 :: Call.close pe.2 :: post ∧
      (∀ d ∈ pre, d.isSetup = true) ∧ (∀ d ∈ post, d.isSpawnp = false) := by
  cases c with
  | spawnp file argv status pid =>
    obtain ⟨hok, hf, ha, hst, hp⟩ :=
      exec_spawnp_mem command args processID output error wait env file argv status pid hc
    obtain ⟨po, pe, hpo, hpe, he⟩ :=
      exec_setup_ok command args processID output error wait env hok
    subst hf ha hst hp
    have hpre : ∀ d ∈ setupCalls po pe (args.length + 2), d.isSetup = true := by
      intro d hd
      simp only [setupCalls, List.mem_cons, List.mem_singleton, List.not_mem_nil,
        or_false] at hd
      rcases hd with rfl | rfl | rfl | rfl | rfl | rfl | rfl | rfl | rfl | rfl <;>
        simp [Call.isSetup]
    by_cases hs0 : env.spawnStatus = 0
    · cases wait
      · refine ⟨po, pe, setupCalls po pe (args.length + 2),
          [Call.actionsDestroy, Call.freeArgv (args.length + 2)], hpo, hpe, ?_, hpre, ?_⟩
        · rw [he]
          simp [hs0, launchCalls]
        · intro d hd
          simp only [List.mem_cons, List.mem_singleton, List.not_mem_nil, or_false] at hd
          rcases hd with rfl | rfl <;> simp [Call.isSpawnp]
      · refine ⟨po, pe, setupCalls po pe (args.length + 2),
          drainCalls po.1 pe.1 env.io (-1) (-1) 0 0 ++
            [Call.waitpid env.spawnPid, Call.actionsDestroy,
              Call.freeArgv (args.length + 2)], hpo, hpe, ?_, hpre, ?_⟩
        · rw [he]
          simp [hs0, launchCalls]
        · intro d hd
          rcases List.mem_append.1 hd with hd | hd
          · exact drainCalls_not_spawnp _ _ _ _ _ _ _ _ hd
          · simp only [List.mem_cons, List.mem_singleton, List.not_mem_nil, or_false] at hd
            rcases hd with rfl | rfl | rfl <;> simp [Call.isSpawnp]
    · refine ⟨po, pe, setupCalls po pe (args.length + 2),
        [Call.actionsDestroy, Call.freeArgv (args.length + 2)], hpo, hpe, ?_, hpre, ?_⟩
      · rw [he]
        simp [hs0, launchCalls]
      · intro d hd
        simp only [List.mem_cons, List.mem_singleton, List.not_mem_nil, or_false] at hd
        rcases hd with rfl | rfl <;> simp [Call.isSpawnp]
  | _ => simp [Call.isSpawnp] at hs

/-- C6, at an input: a launch that fails with status 2. -/
theorem exec_closes_write_ends_after_launch_witness :
    Call.spawnp "/no/such" [some "/no/such", none] 2 0 ∈
      (exec "/no/such" [] 0 [] [] true { envOk [] with spawnStatus := 2 }).trace ∧
    ∃ po pe pre post, ({ envOk [] with spawnStatus := 2 } : Env).pipeOut = some po ∧
      ({ envOk [] with spawnStatus := 2 } : Env).pipeErr = some pe ∧
      (exec "/no/such" [] 0 [] [] true { envOk [] with spawnStatus := 2 }).trace =
        pre ++ Call.spawnp "/no/such" [some "/no/such", none] 2 0 ::
          Call.close po.2 :: Call.close pe.2 :: post ∧
      (∀ d ∈ pre, d.isSetup = true) ∧ (∀ d ∈ post, d.isSpawnp = false) :=
  ⟨by decide, exec_closes_write_ends_after_launch "/no/such" [] 0 [] [] true
    { envOk [] with spawnStatus := 2 }
    (Call.spawnp "/no/such" [some "/no/such", none] 2 0) (by decide) rfl⟩

/-! ## The argument vector (C7) -/

theorem foldl_set_getElem? (f : Nat → Option String) (L : List Nat)
    (argv : List (Option String)) (j : Nat) :
    (L.foldl (fun a i => a.set i (f i)) argv)[j]? =
      if j ∈ L ∧ j < argv.length then some (f j) else argv[j]? := by
  induction L generalizing argv with
  | nil => simp
  | cons i L ih =>
    rw [List.foldl_cons, ih, List.length_set, List.getElem?_set]
    by_cases hj : j < argv.length
    · by_cases hL : j ∈ L
      · simp [hj, hL]
      · by_cases hij : i = j
        · subst hij
          simp [hj]
        · have hji : ¬ j = i := fun h => hij h.symm
          simp [hj, hL, hij, hji]
    · have hnone : argv[j]? = none := List.getElem?_eq_none (Nat.le_of_not_lt hj)
      by_cases hij : i = j
      · subst hij
        simp [hj, hnone]
      · simp [hj, hij]

theorem buildArgv_length (env : Env) (command : String) (args : List String) :
    (buildArgv env command args).length = args.length + 2 := by
  have hlen : ∀ (L : List Nat) (f : Nat → Option String) (argv : List (Option String)),
      (L.foldl (fun a i => a.set i (f i)) argv).length = argv.length := by
    intro L f
    induction L with
    | nil => intro argv; rfl
    | cons i L ih => intro argv; rw [List.foldl_cons, ih, List.length_set]
  simp only [buildArgv, fillArgs]
  rw [hlen (List.range' 1 args.length)
    (fun i => strdup env i (c_str (args.getD (i - 1) "")))]
  simp

theorem buildArgv_getElem? (env : Env) (command : String) (args : List String) (j : Nat) :
    (buildArgv env command args)[j]? =
      if j = 0 then some (strdup env 0 (c_str command))
      else if j < args.length + 1 then some (strdup env j (c_str (args.getD (j - 1) "")))
      else if j = args.length + 1 then some none
      else none := by
  simp only [buildArgv, fillArgs]
  rw [foldl_set_getElem? (fun i => strdup env i (c_str (args.getD (i - 1) "")))]
  simp only [List.mem_range'_1, List.length_set, List.length_replicate, List.getElem?_set,
    List.getElem?_replicate]
  by_cases h0 : j = 0
  · subst h0
    simp
  · by_cases h1 : j < args.length + 1
    · have : 1 ≤ j ∧ j < 1 + args.length := by omega
      have h2 : j < args.length + 2 := by omega
      simp [h0, h1, this, h2]
    · by_cases h2 : j = args.length + 1
      · subst h2
        have h3 : ¬ (args.length + 1 < 1 + args.length) := by omega
        simp [h3]
      · have h3 : ¬ (1 ≤ j ∧ j < 1 + args.length) := by omega
        have h4 : ¬ j < args.length + 2 := by omega
        have h5 : ¬ args.length + 1 = j := fun h => h2 h.symm
        have h6 : ¬ 0 = j := fun h => h0 h.symm
        simp [h0, h1, h2, h3, h4, h5, h6]

theorem buildArgv_eq (env : Env) (command : String) (args : List String)
    (hdup : ∀ i, i ≤ args.length → i ∉ env.strdupNull) :
    buildArgv env command args =
      some (c_str command) :: (args.map (fun a => some (c_str a)) ++ [none]) := by
  apply List.ext_getElem?
  intro j
  rw [buildArgv_getElem?]
  cases j with
  | zero => simp [strdup, hdup 0 (Nat.zero_le _)]
  | succ k =>
    rw [List.getElem?_cons_succ]
    by_cases h1 : k < args.length
    · have h2 : k + 1 < args.length + 1 := by omega
      rw [List.getElem?_append_left (by simpa using h1)]
      simp [h2, strdup, hdup (k + 1) (by omega), h1, List.getD_eq_getElem?_getD]
    · by_cases h2 : k = args.length
      · subst h2
        simp
      · have h3 : ¬ k + 1 < args.length + 1 := by omega
        have h4 : ¬ k + 1 = args.length + 1 := by omega
        have h5 : args.length < k := by omega
        rw [List.getElem?_eq_none (by simp; omega)]
        simp [h3, h4]

theorem c_str_of_no_nul (s : String) (h : Char.ofNat 0 ∉ s.data) : c_str s = s := by
  have hall : ∀ c ∈ s.data, (decide (c ≠ Char.ofNat 0)) = true := by
    intro c hc
    simp only [decide_eq_true_eq]
    intro e
    exact h (e ▸ hc)
  have ht : s.data.takeWhile (fun c => decide (c ≠ Char.ofNat 0)) = s.data :=
    List.takeWhile_eq_self_iff.2 hall
  unfold c_str
  rw [ht]

/-- C7, as stated, fails: with the arguments "a\0b" and "c", slot 1 of the
vector handed to `posix_spawnp` holds "a", which is not a copy of the first
argument: `strdup( args[ 0 ].c_str() )` stops at the NUL character. -/
theorem exec_argv_truncates_at_nul :
    Call.spawnp "/bin/ls" [some "/bin/ls", some "a", some "c", none] 0 4242 ∈
      (exec "/bin/ls" ["a\x00b", "c"] 0 [] [] true (envOk [])).trace ∧
    ¬ ([some "/bin/ls", some "a", some "c", none][1]? = some (["a\x00b", "c"][0]?)) := by
  decide

/-- C7, amended: for every command and every argument list, when every
`strdup` succeeds, the vector handed to `posix_spawnp` has `args.size() + 2`
slots: slot 0 holds the command up to its first NUL character, slot `i` holds
`args[ i - 1 ]` up to its first NUL character for 1 <= i <= `args.size()`, in
the original order, and the last slot holds the null sentinel; when neither
the command nor an argument holds a NUL character, the slots hold the command
and the arguments themselves. -/
theorem exec_argv_layout (command : String) (args : List String) (processID : Int)
    (output error : List Byte) (wait : Bool) (env : Env) (file : String)
    (argv : List (Option String)) (status pid : Int)
    (hdup : ∀ i, i ≤ args.length → i ∉ env.strdupNull)
    (hcall : Call.spawnp file argv status pid ∈
      (exec command args processID output error wait env).trace) :
    argv.length = args.length + 2 ∧
    argv[0]? = some (some (c_str command)) ∧
    (∀ i, 1 ≤ i → i ≤ args.length → argv[i]? = some ((args[i - 1]?).map c_str)) ∧
    argv[args.length + 1]? = some none ∧
    argv = some (c_str command) :: (args.map (fun a => some (c_str a)) ++ [none]) ∧
    (Char.ofNat 0 ∉ command.data → (∀ a ∈ args, Char.ofNat 0 ∉ a.data) →
      argv[0]? = some (some command) ∧
      (∀ i, 1 ≤ i → i ≤ args.length → argv[i]? = some (args[i - 1]?)) ∧
      argv = some command :: (args.map some ++ [none])) := by
  obtain ⟨-, -, ha, -, -⟩ :=
    exec_spawnp_mem command args processID output error wait env file argv status pid hcall
  subst ha
  have h0 : (buildArgv env command args)[0]? = some (some (c_str command)) := by
    rw [buildArgv_getElem?]
    simp [strdup, hdup 0 (Nat.zero_le _)]
  have hi : ∀ i, 1 ≤ i → i ≤ args.length →
      (buildArgv env command args)[i]? = some ((args[i - 1]?).map c_str) := by
    intro i h1 h2
    rw [buildArgv_getElem?]
    have h3 : i ≠ 0 := by omega
    have h4 : i < args.length + 1 := by omega
    have h5 : i - 1 < args.length := by omega
    simp [h3, h4, strdup, hdup i h2, List.getD_eq_getElem?_getD, h5]
  have heq := buildArgv_eq env command args hdup
  refine ⟨buildArgv_length env command args, h0, hi, ?_, heq, ?_⟩
  · rw [buildArgv_getElem?]
    simp
  · intro hc hargs
    have hmap : args.map (fun a => some (c_str a)) = args.map some := by
      apply List.map_congr_left
      intro a ha
      rw [c_str_of_no_nul a (hargs a ha)]
    refine ⟨?_, ?_, ?_⟩
    · rw [h0, c_str_of_no_nul command hc]
    · intro i h1 h2
      rw [hi i h1 h2]
      have h5 : i - 1 < args.length := by omega
      rw [List.getElem?_eq_getElem h5]
      simp only [Option.map_some']
      rw [c_str_of_no_nul _ (hargs _ (List.getElem_mem _))]
    · rw [heq, hmap, c_str_of_no_nul command hc]

/-- C7, amended, at an input: the call of `main`,
`exec( "/bin/ls", { "-al", "/" }, ... )`, whose strings hold no NUL. -/
theorem exec_argv_layout_witness :
    Call.spawnp "/bin/ls" [some "/bin/ls", some "-al", some "/", none] 0 4242 ∈
      (exec "/bin/ls" ["-al", "/"] 0 [] [] true (envOk [])).trace ∧
    [some "/bin/ls", some "-al", some "/", none].length = ["-al", "/"].length + 2 ∧
    [some "/bin/ls", some "-al", some "/", none][["-al", "/"].length + 1]? = some none ∧
    [some "/bin/ls", some "-al", some "/", none][0]? = some (some "/bin/ls") ∧
    (∀ i, 1 ≤ i → i ≤ ["-al", "/"].length →
      [some "/bin/ls", some "-al", some "/", none][i]? = some (["-al", "/"][i - 1]?)) ∧
    [some "/bin/ls", some "-al", some "/", none] =
      some "/bin/ls" :: (["-al", "/"].map some ++ [none]) :=
  have h := exec_argv_layout "/bin/ls" ["-al", "/"] 0 [] [] true (envOk [])
    "/bin/ls" [some "/bin/ls", some "-al", some "/", none] 0 4242
    (by intro i _; simp [envOk]) (by decide)
  ⟨by decide, h.1, h.2.2.2.1, h.2.2.2.2.2 (by decide) (by decide)⟩

/-! ## The exit of the drain loop (C9) -/

/-- C9 fails on the code: the child closes its stdout and will later write to
stderr; `poll` returns 1, reporting only a hang-up on the stdout pipe.  The
loop exits through `break` with `rval` positive while both streams are still
`Open`: no `read` has returned zero, and the kernel, replayed on the calls of
the loop, still has the child holding the write end of the stderr pipe with a
`write` to come. -/
theorem drain_exit_with_open_streams :
    0 < (drain 3 5 [⟨1, POLLHUP, 0, none⟩] ⟨-1, -1, 0, 0, 0, [], [], []⟩).rval ∧
    streamState (drain 3 5 [⟨1, POLLHUP, 0, none⟩] ⟨-1, -1, 0, 0, 0, [], [], []⟩).n0 =
      StreamState.Open ∧
    streamState (drain 3 5 [⟨1, POLLHUP, 0, none⟩] ⟨-1, -1, 0, 0, 0, [], [], []⟩).n1 =
      StreamState.Open ∧
    (drain 3 5 [⟨1, POLLHUP, 0, none⟩] ⟨-1, -1, 0, 0, 0, [], [], []⟩).trace =
      [Call.poll 3 5 1 POLLHUP 0] ∧
    Option.map Kernel.openErr
      (Kernel.replay false 3 5 (Kernel.start closeThenComplain) [1]
        (drain 3 5 [⟨1, POLLHUP, 0, none⟩] ⟨-1, -1, 0, 0, 0, [], [], []⟩).trace) =
      some true ∧
    Option.map Kernel.prog
      (Kernel.replay false 3 5 (Kernel.start closeThenComplain) [1]
        (drain 3 5 [⟨1, POLLHUP, 0, none⟩] ⟨-1, -1, 0, 0, 0, [], [], []⟩).trace) =
      some [ChildOp.write Stream.err [69, 10]] := by
  decide

/-! ## No read on an exhausted stream (C10) -/

theorem drainCalls_no_read_of_exhausted (fdOut fdErr fd : Fd) (io : List IoStep)
    (n0 n1 : Int) (r0 r1 : Nat) (h0 : fd = fdOut → n0 = 0) (h1 : fd = fdErr → n1 = 0) :
    ∀ cnt res, Call.read fd cnt res ∉ drainCalls fdOut fdErr io n0 n1 r0 r1 := by
  induction io generalizing n0 n1 r0 r1 with
  | nil => simp [drainCalls]
  | cons s rest ih =>
    intro cnt res hmem
    simp only [drainCalls, List.mem_cons] at hmem
    rcases hmem with hmem | hmem
    · cases hmem
    · by_cases h : s.rval > 0
      · by_cases hb0 : n0 ≠ 0 ∧ s.revents0 &&& POLLIN ≠ 0
        · simp only [if_pos h, if_pos hb0, List.mem_cons] at hmem
          have hfd : fd ≠ fdOut := fun e => hb0.1 (h0 e)
          rcases hmem with hmem | hmem
          · injection hmem with e
            exact hfd e
          · exact ih _ _ _ _ (fun e => absurd e hfd) h1 cnt res hmem
        · by_cases hb1 : n1 ≠ 0 ∧ s.revents1 &&& POLLIN ≠ 0
          · simp only [if_pos h, if_neg hb0, if_pos hb1, List.mem_cons] at hmem
            have hfd : fd ≠ fdErr := fun e => hb1.1 (h1 e)
            rcases hmem with hmem | hmem
            · injection hmem with e
              exact hfd e
            · exact ih _ _ _ _ h0 (fun e => absurd e hfd) cnt res hmem
          · simp only [if_pos h, if_neg hb0, if_neg hb1] at hmem
            exact absurd hmem (List.not_mem_nil _)
      · simp only [if_neg h] at hmem
        exact absurd hmem (List.not_mem_nil _)

theorem drainCalls_no_read_after_eof (fdOut fdErr : Fd) (hne : fdOut ≠ fdErr) (fd : Fd)
    (io : List IoStep) (n0 n1 : Int) (r0 r1 : Nat) (pre post : List Call) (cnt : Nat)
    (hsplit : drainCalls fdOut fdErr io n0 n1 r0 r1 =
      pre ++ Call.read fd cnt (some []) :: post) :
    ∀ cnt' res, Call.read fd cnt' res ∉ post := by
  induction io generalizing n0 n1 r0 r1 pre with
  | nil =>
    cases pre with
    | nil => simp [drainCalls] at hsplit
    | cons p pre' => simp [drainCalls] at hsplit
  | cons s rest ih =>
    cases pre with
    | nil => simp [drainCalls] at hsplit
    | cons p pre' =>
      simp only [drainCalls, List.cons_append, List.cons.injEq] at hsplit
      obtain ⟨-, hX⟩ := hsplit
      by_cases h : s.rval > 0
      · by_cases hb0 : n0 ≠ 0 ∧ s.revents0 &&& POLLIN ≠ 0
        · rw [if_pos h, if_pos hb0] at hX
          cases pre' with
          | nil =>
            simp only [List.nil_append, List.cons.injEq, Call.read.injEq] at hX
            obtain ⟨⟨hfd, -, hrd⟩, hpost⟩ := hX
            have hz : readN s.rd = 0 := (readN_eq_zero s.rd).2 hrd
            rw [hz] at hpost
            rw [← hpost]
            exact drainCalls_no_read_of_exhausted fdOut fdErr fd rest 0 n1 _ _
              (fun _ => rfl) (fun e => absurd (hfd.trans e) hne)
          | cons q pre2 =>
            simp only [List.cons_append, List.cons.injEq] at hX
            exact ih _ _ _ _ pre2 hX.2
        · by_cases hb1 : n1 ≠ 0 ∧ s.revents1 &&& POLLIN ≠ 0
          · rw [if_pos h, if_neg hb0, if_pos hb1] at hX
            cases pre' with
            | nil =>
              simp only [List.nil_append, List.cons.injEq, Call.read.injEq] at hX
              obtain ⟨⟨hfd, -, hrd⟩, hpost⟩ := hX
              have hz : readN s.rd = 0 := (readN_eq_zero s.rd).2 hrd
              rw [hz] at hpost
              rw [← hpost]
              exact drainCalls_no_read_of_exhausted fdOut fdErr fd rest n0 0 _ _
                (fun e => absurd (e.symm.trans hfd.symm) hne) (fun _ => rfl)
            | cons q pre2 =>
              simp only [List.cons_append, List.cons.injEq] at hX
              exact ih _ _ _ _ pre2 hX.2
          · rw [if_pos h, if_neg hb0, if_neg hb1] at hX
            cases pre' <;> simp at hX
      · rw [if_neg h] at hX
        cases pre' <;> simp at hX

theorem drainCalls_reads_stdout (fdOut fdErr : Fd) (io : List IoStep) (n0 n1 : Int)
    (q0 q1 : Nat) (pre post : List Call) (rval : Int) (r0 r1 : Nat)
    (hsplit : drainCalls fdOut fdErr io n0 n1 q0 q1 =
      pre ++ Call.poll fdOut fdErr rval r0 r1 :: post)
    (hpos : 0 < rval) (hin : r0 &&& POLLIN ≠ 0) (hopen : n0 ≠ 0)
    (hnz : ∀ cnt, Call.read fdOut cnt (some []) ∉ pre) :
    ∃ res post', post = Call.read fdOut 1024 res :: post' := by
  induction io generalizing n0 n1 q0 q1 pre with
  | nil =>
    cases pre with
    | nil =>
      simp only [drainCalls, List.nil_append, List.cons.injEq, Call.poll.injEq] at hsplit
      omega
    | cons p pre' => simp [drainCalls] at hsplit
  | cons s rest ih =>
    cases pre with
    | nil =>
      simp only [drainCalls, List.nil_append, List.cons.injEq, Call.poll.injEq] at hsplit
      obtain ⟨⟨-, -, hr, hr0, -⟩, hX⟩ := hsplit
      have h : s.rval > 0 := by omega
      have hb0 : n0 ≠ 0 ∧ s.revents0 &&& POLLIN ≠ 0 := ⟨hopen, hr0 ▸ hin⟩
      rw [if_pos h, if_pos hb0] at hX
      exact ⟨_, _, hX.symm⟩
    | cons p pre' =>
      simp only [drainCalls, List.cons_append, List.cons.injEq] at hsplit
      obtain ⟨hp, hX⟩ := hsplit
      by_cases h : s.rval > 0
      · by_cases hb0 : n0 ≠ 0 ∧ s.revents0 &&& POLLIN ≠ 0
        · rw [if_pos h, if_pos hb0] at hX
          cases pre' with
          | nil => simp at hX
          | cons q pre2 =>
            simp only [List.cons_append, List.cons.injEq] at hX
            obtain ⟨hq, hX⟩ := hX
            have hn : readN s.rd ≠ 0 := by
              intro hz
              have hrd := (readN_eq_zero s.rd).1 hz
              apply hnz 1024
              rw [← hq, hrd]
              simp
            exact ih _ _ _ _ pre2 hX hn
              (fun cnt hm => hnz cnt (List.mem_cons_of_mem _ (List.mem_cons_of_mem _ hm)))
        · by_cases hb1 : n1 ≠ 0 ∧ s.revents1 &&& POLLIN ≠ 0
          · rw [if_pos h, if_neg hb0, if_pos hb1] at hX
            cases pre' with
            | nil => simp at hX
            | cons q pre2 =>
              simp only [List.cons_append, List.cons.injEq] at hX
              exact ih _ _ _ _ pre2 hX.2 hopen
                (fun cnt hm => hnz cnt (List.mem_cons_of_mem _ (List.mem_cons_of_mem _ hm)))
          · rw [if_pos h, if_neg hb0, if_neg hb1] at hX
            cases pre' <;> simp at hX
      · rw [if_neg h] at hX
        cases pre' <;> simp at hX

theorem drainCalls_reads_stderr (fdOut fdErr : Fd) (io : List IoStep) (n0 n1 : Int)
    (q0 q1 : Nat) (pre post : List Call) (rval : Int) (r0 r1 : Nat)
    (hsplit : drainCalls fdOut fdErr io n0 n1 q0 q1 =
      pre ++ Call.poll fdOut fdErr rval r0 r1 :: post)
    (hpos : 0 < rval) (hin : r1 &&& POLLIN ≠ 0)
    (hout : n0 = 0 ∨ ∃ cnt, Call.read fdOut cnt (some []) ∈ pre)
    (hopen : n1 ≠ 0) (hnz : ∀ cnt, Call.read fdErr cnt (some []) ∉ pre) :
    ∃ res post', post = Call.read fdErr 1024 res :: post' := by
  induction io generalizing n0 n1 q0 q1 pre with
  | nil =>
    cases pre with
    | nil =>
      simp only [drainCalls, List.nil_append, List.cons.injEq, Call.poll.injEq] at hsplit
      omega
    | cons p pre' => simp [drainCalls] at hsplit
  | cons s rest ih =>
    cases pre with
    | nil =>
      simp only [drainCalls, List.nil_append, List.cons.injEq, Call.poll.injEq] at hsplit
      obtain ⟨⟨-, -, hr, -, hr1⟩, hX⟩ := hsplit
      have h : s.rval > 0 := by omega
      have hn0 : n0 = 0 := by
        rcases hout with h0 | ⟨cnt, hm⟩
        · exact h0
        · exact absurd hm (List.not_mem_nil _)
      have hb0 : ¬ (n0 ≠ 0 ∧ s.revents0 &&& POLLIN ≠ 0) := fun hb => hb.1 hn0
      have hb1 : n1 ≠ 0 ∧ s.revents1 &&& POLLIN ≠ 0 := ⟨hopen, hr1 ▸ hin⟩
      rw [if_pos h, if_neg hb0, if_pos hb1] at hX
      exact ⟨_, _, hX.symm⟩
    | cons p pre' =>
      simp only [drainCalls, List.cons_append, List.cons.injEq] at hsplit
      obtain ⟨hp, hX⟩ := hsplit
      by_cases h : s.rval > 0
      · by_cases hb0 : n0 ≠ 0 ∧ s.revents0 &&& POLLIN ≠ 0
        · rw [if_pos h, if_pos hb0] at hX
          cases pre' with
          | nil => simp at hX
          | cons q pre2 =>
            simp only [List.cons_append, List.cons.injEq] at hX
            obtain ⟨hq, hX⟩ := hX
            have hout' : readN s.rd = 0 ∨ ∃ cnt, Call.read fdOut cnt (some []) ∈ pre2 := by
              rcases hout with h0 | ⟨cnt, hm⟩
              · exact absurd h0 hb0.1
              · rcases List.mem_cons.1 hm with e | hm
                · rw [← hp] at e
                  cases e
                · rcases List.mem_cons.1 hm with e | hm
                  · left
                    rw [← hq] at e
                    injection e with _ _ e3
                    exact (readN_eq_zero s.rd).2 e3.symm
                  · exact Or.inr ⟨cnt, hm⟩
            exact ih _ _ _ _ pre2 hX hout' hopen
              (fun cnt hm => hnz cnt (List.mem_cons_of_mem _ (List.mem_cons_of_mem _ hm)))
        · by_cases hb1 : n1 ≠ 0 ∧ s.revents1 &&& POLLIN ≠ 0
          · rw [if_pos h, if_neg hb0, if_pos hb1] at hX
            cases pre' with
            | nil => simp at hX
            | cons q pre2 =>
              simp only [List.cons_append, List.cons.injEq] at hX
              obtain ⟨hq, hX⟩ := hX
              have hn : readN s.rd ≠ 0 := by
                intro hz
                have hrd := (readN_eq_zero s.rd).1 hz
                apply hnz 1024
                rw [← hq, hrd]
                simp
              have hout' : n0 = 0 ∨ ∃ cnt, Call.read fdOut cnt (some []) ∈ pre2 := by
                rcases hout with h0 | ⟨cnt, hm⟩
                · exact Or.inl h0
                · rcases List.mem_cons.1 hm with e | hm
                  · rw [← hp] at e
                    cases e
                  · rcases List.mem_cons.1 hm with e | hm
                    · exfalso
                      rw [← hq] at e
                      injection e with _ _ e3
                      exact hn ((readN_eq_zero s.rd).2 e3.symm)
                    · exact Or.inr ⟨cnt, hm⟩
              exact ih _ _ _ _ pre2 hX hout' hn
                (fun cnt hm => hnz cnt (List.mem_cons_of_mem _ (List.mem_cons_of_mem _ hm)))
          · rw [if_pos h, if_neg hb0, if_neg hb1] at hX
            cases pre' <;> simp at hX
      · rw [if_neg h] at hX
        cases pre' <;> simp at hX

/-- C10: in the drain loop, for every sequence of `poll` and `read` answers
(the two read ends being distinct descriptors): once a `read` on a descriptor
has returned zero, no later `read` is issued on that descriptor; and when a
`poll` returns a positive value and flags as readable the stream that is not
yet exhausted while the other one is exhausted, the next call is a `read` of
1024 bytes on the stream that is not exhausted. -/
theorem drain_never_reads_exhausted_stream (fdOut fdErr : Fd) (hne : fdOut ≠ fdErr)
    (io : List IoStep) (output error : List Byte) :
    (∀ fd pre post cnt,
      (drain fdOut fdErr io ⟨-1, -1, 0, 0, 0, output, error, []⟩).trace =
        pre ++ Call.read fd cnt (some []) :: post →
      ∀ cnt' res, Call.read fd cnt' res ∉ post) ∧
    (∀ pre post rval r0 r1,
      (drain fdOut fdErr io ⟨-1, -1, 0, 0, 0, output, error, []⟩).trace =
        pre ++ Call.poll fdOut fdErr rval r0 r1 :: post →
      0 < rval → r1 &&& POLLIN ≠ 0 →
      (∃ cnt, Call.read fdOut cnt (some []) ∈ pre) →
      (∀ cnt, Call.read fdErr cnt (some []) ∉ pre) →
      ∃ res post', post = Call.read fdErr 1024 res :: post') ∧
    (∀ pre post rval r0 r1,
      (drain fdOut fdErr io ⟨-1, -1, 0, 0, 0, output, error, []⟩).trace =
        pre ++ Call.poll fdOut fdErr rval r0 r1 :: post →
      0 < rval → r0 &&& POLLIN ≠ 0 →
      (∃ cnt, Call.read fdErr cnt (some []) ∈ pre) →
      (∀ cnt, Call.read fdOut cnt (some []) ∉ pre) →
      ∃ res post', post = Call.read fdOut 1024 res :: post') := by
  have ht : (drain fdOut fdErr io ⟨-1, -1, 0, 0, 0, output, error, []⟩).trace =
      drainCalls fdOut fdErr io (-1) (-1) 0 0 := by
    rw [drain_trace]
    rfl
  rw [ht]
  refine ⟨?_, ?_, ?_⟩
  · intro fd pre post cnt hsplit
    exact drainCalls_no_read_after_eof fdOut fdErr hne fd io _ _ _ _ pre post cnt hsplit
  · intro pre post rval r0 r1 hsplit hpos hin hout hnz
    exact drainCalls_reads_stderr fdOut fdErr io _ _ _ _ pre post rval r0 r1 hsplit hpos hin
      (Or.inr hout) (by decide) hnz
  · intro pre post rval r0 r1 hsplit hpos hin _ hnz
    exact drainCalls_reads_stdout fdOut fdErr io _ _ _ _ pre post rval r0 r1 hsplit hpos hin
      (by decide) hnz

/-- C10, at an input: stdout ends first while the system keeps flagging it
readable, stderr then delivers one byte. -/
theorem drain_never_reads_exhausted_stream_witness :
    (3 : Fd) ≠ 5 ∧
    (drain 3 5 [⟨1, 17, 0, some []⟩, ⟨2, 17, 1, some [9]⟩, ⟨2, 17, 17, some []⟩]
        ⟨-1, -1, 0, 0, 0, [], [], []⟩).trace =
      [Call.poll 3 5 1 17 0, Call.read 3 1024 (some []), Call.poll 3 5 2 17 1,
        Call.read 5 1024 (some [9]), Call.poll 3 5 2 17 17, Call.read 5 1024 (some []),
        Call.poll 3 5 (-1) 17 17] ∧
    (∀ cnt' res, Call.read 3 cnt' res ∉
      [Call.poll 3 5 2 17 1, Call.read 5 1024 (some [9]), Call.poll 3 5 2 17 17,
        Call.read 5 1024 (some []), Call.poll 3 5 (-1) 17 17]) :=
  ⟨by decide, by decide,
    (drain_never_reads_exhausted_stream 3 5 (by decide)
      [⟨1, 17, 0, some []⟩, ⟨2, 17, 1, some [9]⟩, ⟨2, 17, 17, some []⟩] [] []).1
      3 [Call.poll 3 5 1 17 0] _ 1024 (by decide)⟩

/-! ## What the drain loop loses (C1) -/

/-- C1 fails on the code: the child closes its stdout and later writes "E\n"
to stderr.  `poll` returns as soon as stdout hangs up, stderr being silent at
that time; the loop leaves through `break`, `exec` returns `true` with `error`
empty, and the two bytes the child wrote to stderr are lost.  First with a
kernel that reports `POLLHUP` alone at the end of a stream, then with one that
also reports `POLLIN` there. -/
theorem exec_loses_stderr_after_stdout_hangup :
    (exec "/bin/sh" ["-c", "exec >&-; sleep 1; echo E >&2"] 0 [] [] true
      (envOk [⟨1, 16, 0, none⟩])).ret = true ∧
    (exec "/bin/sh" ["-c", "exec >&-; sleep 1; echo E >&2"] 0 [] [] true
      (envOk [⟨1, 16, 0, none⟩])).error = [] ∧
    Option.map Kernel.wroteErr
      (Kernel.replay false 3 5 (Kernel.start closeThenComplain) [1]
        (exec "/bin/sh" ["-c", "exec >&-; sleep 1; echo E >&2"] 0 [] [] true
          (envOk [⟨1, 16, 0, none⟩])).trace) = some [69, 10] ∧
    (exec "/bin/sh" ["-c", "exec >&-; sleep 1; echo E >&2"] 0 [] [] true
      (envOk [⟨1, 17, 0, some []⟩, ⟨1, 17, 0, none⟩])).ret = true ∧
    (exec "/bin/sh" ["-c", "exec >&-; sleep 1; echo E >&2"] 0 [] [] true
      (envOk [⟨1, 17, 0, some []⟩, ⟨1, 17, 0, none⟩])).error = [] ∧
    Option.map Kernel.wroteErr
      (Kernel.replay true 3 5 (Kernel.start closeThenComplain) [1, 0]
        (exec "/bin/sh" ["-c", "exec >&-; sleep 1; echo E >&2"] 0 [] [] true
          (envOk [⟨1, 17, 0, some []⟩, ⟨1, 17, 0, none⟩])).trace) = some [69, 10] := by
  decide

/-! ## Descriptors left open (C2, C5) -/

/-- C2 fails on the code: with descriptors 0, 1, 2 open at the call and the
pipes created as (3, 4) and (5, 6), the read ends 3 and 5 are still open when
`exec` returns, after a launch that succeeds and is waited for (the call of
`main`), after one that is not waited for, and after one that fails. -/
theorem exec_leaves_read_ends_open :
    fdTable [0, 1, 2]
      (exec "/bin/ls" ["-al", "/"] 0 [] [] true (envOk [⟨2, 16, 16, none⟩])).trace =
        [0, 1, 2, 3, 5] ∧
    fdTable [0, 1, 2]
      (exec "/bin/ls" ["-al", "/"] 0 [] [] false (envOk [])).trace = [0, 1, 2, 3, 5] ∧
    fdTable [0, 1, 2]
      (exec "/no/such" [] 0 [] [] true { envOk [] with spawnStatus := 2 }).trace =
        [0, 1, 2, 3, 5] := by
  decide

/-- C5 fails on the code: with descriptors 0, 1, 2 open at the call, when the
first `pipe` gives (3, 4) and the second one fails, `exec` returns `false` with
3 and 4 still open; when `calloc` fails after both pipes were created as (3, 4)
and (5, 6), it returns `false` with 3, 4, 5 and 6 still open. -/
theorem exec_early_return_leaks_pipes :
    (exec "/bin/ls" ["-al", "/"] 0 [] [] true { envOk [] with pipeErr := none }).ret = false ∧
    fdTable [0, 1, 2]
      (exec "/bin/ls" ["-al", "/"] 0 [] [] true { envOk [] with pipeErr := none }).trace =
        [0, 1, 2, 3, 4] ∧
    (exec "/bin/ls" ["-al", "/"] 0 [] [] true { envOk [] with calloc := false }).ret = false ∧
    fdTable [0, 1, 2]
      (exec "/bin/ls" ["-al", "/"] 0 [] [] true { envOk [] with calloc := false }).trace =
        [0, 1, 2, 3, 4, 5, 6] := by
  decide

end PosixSpawn
